import Mathlib

/-!
Shallow embedding of the SOSBridge call-session core
(`src/lib/utils.ts` rate limiter + Conversation state machine + registry,
and the emergency intake handler's request schema), with theorems settling
the specification claims.

JavaScript `Map` objects are modelled as association lists with
replace-on-set semantics; `Date.now()` timestamps are explicit `Nat`
parameters threaded through each operation; `EventEmitter.emit` calls are
modelled as an output list of `Event`s returned alongside the new state.
-/

namespace SOSBridge

/-- Association-list model of a JavaScript `Map`: lookup. -/
def mapGet {α β : Type} [DecidableEq α] : List (α × β) → α → Option β
  | [], _ => none
  | (k', v) :: rest, k => if k' = k then some v else mapGet rest k

/-- Association-list model of a JavaScript `Map`: `set` replaces an existing
binding or appends a new one. -/
def mapSet {α β : Type} [DecidableEq α] : List (α × β) → α → β → List (α × β)
  | [], k, v => [(k, v)]
  | (k', v') :: rest, k, v =>
      if k' = k then (k, v) :: rest else (k', v') :: mapSet rest k v

/-- Association-list model of a JavaScript `Map`: `delete`. -/
def mapErase {α β : Type} [DecidableEq α] : List (α × β) → α → List (α × β)
  | [], _ => []
  | (k', v) :: rest, k => if k' = k then rest else (k', v) :: mapErase rest k

theorem mapGet_mapSet_self {α β : Type} [DecidableEq α]
    (m : List (α × β)) (k : α) (v : β) : mapGet (mapSet m k v) k = some v := by
  induction m with
  | nil => simp [mapGet, mapSet]
  | cons hd tl ih =>
      obtain ⟨k', v'⟩ := hd
      by_cases h : k' = k
      · simp [mapGet, mapSet, h]
      · simp [mapGet, mapSet, h, ih]

theorem mapGet_mapSet_ne {α β : Type} [DecidableEq α]
    (m : List (α × β)) {k k' : α} (v : β) (h : k' ≠ k) :
    mapGet (mapSet m k v) k' = mapGet m k' := by
  have hk : k ≠ k' := Ne.symm h
  induction m with
  | nil => simp [mapGet, mapSet, hk]
  | cons hd tl ih =>
      obtain ⟨k₀, v₀⟩ := hd
      by_cases h0 : k₀ = k
      · subst h0
        simp [mapGet, mapSet, hk]
      · simp [mapGet, mapSet, h0, ih]

/-! ### Rate limiter (`checkRateLimit` in `src/lib/utils.ts`)

The JS bucket key is the string `identifier + ":" + floor(now/windowMs)`;
since the rendered bucket number contains no `:` this string determines the
pair (identifier, bucket), which we use directly as the key type. -/

structure RLKey where
  identifier : String
  bucket : Nat
deriving Repr, DecidableEq

structure RLEntry where
  count : Nat
  resetTime : Nat
deriving Repr, DecidableEq

/-- Result record of `checkRateLimit`; `remaining` is an `Int` because the
JS value `maxRequests - 1` may be negative when `maxRequests = 0`. -/
structure RLResult where
  allowed : Bool
  remaining : Int
  resetTime : Nat
deriving Repr, DecidableEq

abbrev RLStore := List (RLKey × RLEntry)

def rlKey (identifier : String) (now windowMs : Nat) : RLKey :=
  ⟨identifier, now / windowMs⟩

/-- Embedding of `checkRateLimit(identifier, maxRequests, windowMs)` from
`src/lib/utils.ts`, with the mutable module-level `rateLimitStore` made an
explicit argument/result and `Date.now()` the explicit `now`. -/
def checkRateLimit (store : RLStore) (identifier : String)
    (maxRequests windowMs now : Nat) : RLResult × RLStore :=
  let key := rlKey identifier now windowMs
  match mapGet store key with
  | none =>
      (⟨true, (maxRequests : Int) - 1, now + windowMs⟩,
        mapSet store key ⟨1, now + windowMs⟩)
  | some current =>
      if current.resetTime < now then
        (⟨true, (maxRequests : Int) - 1, now + windowMs⟩,
          mapSet store key ⟨1, now + windowMs⟩)
      else if maxRequests ≤ current.count then
        (⟨false, 0, current.resetTime⟩, store)
      else
        (⟨true, (maxRequests : Int) - (current.count + 1), current.resetTime⟩,
          mapSet store key ⟨current.count + 1, current.resetTime⟩)

/-- A sequence of `checkRateLimit` calls for one identifier at the given
times, threading the store; returns the list of results and final store. -/
def rlRun (store : RLStore) (identifier : String) (maxRequests windowMs : Nat) :
    List Nat → List RLResult × RLStore
  | [] => ([], store)
  | t :: ts =>
      let p := checkRateLimit store identifier maxRequests windowMs t
      let q := rlRun p.2 identifier maxRequests windowMs ts
      (p.1 :: q.1, q.2)

/-- The result sequence produced inside one bucket whose entry holds
`resetTime = rt` and count `c` at the start: each call increments the count
while below `maxRequests` and is rejected afterwards. -/
def bucketResults (maxRequests rt : Nat) : Nat → Nat → List RLResult
  | _, 0 => []
  | c, len + 1 =>
      if maxRequests ≤ c then
        RLResult.mk false 0 rt :: bucketResults maxRequests rt c len
      else
        RLResult.mk true ((maxRequests : Int) - (c + 1)) rt ::
          bucketResults maxRequests rt (c + 1) len

/-! ### Conversation-level rate limiting (`src/lib/utils.ts`, conversation module) -/

def MAX_CALLS_PER_SESSION : Nat := 1

def MAX_CALLS_PER_MINUTE : Nat := 3

def MAX_CALLS_PER_HOUR : Nat := 10

def CALL_COOLDOWN_MS : Nat := 30000

structure SessionData where
  count : Nat
  lastCall : Nat
deriving Repr, DecidableEq

/-- The module-level `rateLimitState` of the conversation module. -/
structure RateLimitState where
  globalCalls : List Nat
  sessionCalls : List (String × SessionData)
deriving Repr, DecidableEq

structure LimitResult where
  limited : Bool
  reason : Option String
deriving Repr, DecidableEq

/-- Embedding of `isRateLimited(sessionId)`: prunes `globalCalls` to the
trailing hour, then checks the global hourly and minute ceilings, the
per-session cooldown and the per-session call-count ceiling, in that order.
`now - t` is `Nat` subtraction, which agrees with the JS comparison
`now - timestamp < w` for timestamps not in the future. -/
def isRateLimited (st : RateLimitState) (sessionId : String) (now : Nat) :
    LimitResult × RateLimitState :=
  let pruned := st.globalCalls.filter (fun t => now - t < 3600000)
  let st' : RateLimitState := ⟨pruned, st.sessionCalls⟩
  let hourlyCalls := (pruned.filter (fun t => now - t < 3600000)).length
  if MAX_CALLS_PER_HOUR ≤ hourlyCalls then
    (⟨true, some "Hourly call limit exceeded"⟩, st')
  else
    let minuteCalls := (pruned.filter (fun t => now - t < 60000)).length
    if MAX_CALLS_PER_MINUTE ≤ minuteCalls then
      (⟨true, some "Minute call limit exceeded"⟩, st')
    else
      match mapGet st.sessionCalls sessionId with
      | some sessionData =>
          if now - sessionData.lastCall < CALL_COOLDOWN_MS then
            (⟨true, some "Call cooldown period active"⟩, st')
          else if MAX_CALLS_PER_SESSION ≤ sessionData.count then
            (⟨true, some "Session call limit exceeded"⟩, st')
          else
            (⟨false, none⟩, st')
      | none => (⟨false, none⟩, st')

/-- Embedding of `recordCall(sessionId)`: appends `now` to the global call
timestamps and bumps the session's count / last-call record. -/
def recordCall (st : RateLimitState) (sessionId : String) (now : Nat) :
    RateLimitState :=
  let sessionData := (mapGet st.sessionCalls sessionId).getD ⟨0, 0⟩
  ⟨st.globalCalls ++ [now],
    mapSet st.sessionCalls sessionId ⟨sessionData.count + 1, now⟩⟩

/-! ### Conversation state machine (`class Conversation` in `src/lib/utils.ts`) -/

inductive Role
  | user
  | callee
  | system
deriving Repr, DecidableEq

structure Message where
  id : String
  role : Role
  text : String
  timestamp : Nat
deriving Repr, DecidableEq

/-- `ws.readyState` values of the `ws` WebSocket library. -/
inductive WsState
  | CONNECTING
  | OPEN
  | CLOSING
  | CLOSED
deriving Repr, DecidableEq

/-- Observable effects of a Conversation method: `EventEmitter.emit` calls
(`message`, `ended`, `error`) plus the direct `ws.close()` action. -/
inductive Event
  | message (role : Role) (text : String)
  | ended
  | wsClose
  | errorEv (text : String)
deriving Repr, DecidableEq

/-- Mutable fields of a `Conversation` instance; the WebSocket handle is
modelled by its `readyState` (present iff `this.ws !== null`). -/
structure Conv where
  sessionId : String
  conversationId : Option String
  ws : Option WsState
  isActive : Bool
  callInitiated : Bool
  messages : List Message
deriving Repr, DecidableEq

/-- `new Conversation(sessionId)`. -/
def newConversation (sessionId : String) : Conv :=
  ⟨sessionId, none, none, false, false, []⟩

/-- JS truthiness of a nullable string: `null` and `""` are falsy. -/
def jsTruthyStr : Option String → Bool
  | none => false
  | some s => !(s == "")

/-- Model of JavaScript `String.prototype.trim`: drop leading and trailing
whitespace. -/
def jsTrim (s : String) : String :=
  ⟨(((s.data.dropWhile Char.isWhitespace).reverse.dropWhile
      Char.isWhitespace).reverse)⟩

structure AdmissionResult where
  allowed : Bool
  reason : Option String
deriving Repr, DecidableEq

/-- Embedding of `Conversation.canInitiateCall()`: already-active check
(`this.isActive && this.conversationId`), already-initiated check, then the
shared rate limiter. -/
def canInitiateCall (c : Conv) (st : RateLimitState) (now : Nat) :
    AdmissionResult × RateLimitState :=
  if c.isActive && jsTruthyStr c.conversationId then
    (⟨false, some "Call already active"⟩, st)
  else if c.callInitiated then
    (⟨false, some "Call already initiated"⟩, st)
  else
    let p := isRateLimited st c.sessionId now
    if p.1.limited then (⟨false, p.1.reason⟩, p.2)
    else (⟨true, none⟩, p.2)

/-- Embedding of `Conversation.markCallInitiated()`. -/
def markCallInitiated (c : Conv) (st : RateLimitState) (now : Nat) :
    Conv × RateLimitState :=
  ({ c with callInitiated := true }, recordCall st c.sessionId now)

/-- The start-call error path of the emergency API handler: on a thrown
call-initiation error it executes `conversation.callInitiated = false`. -/
def rollbackCallInitiated (c : Conv) : Conv :=
  { c with callInitiated := false }

/-- Embedding of `Conversation.end()`: resets `isActive` and
`callInitiated`, closes and dereferences the WebSocket if present, and
always emits `ended`. -/
def endConv (c : Conv) : Conv × List Event :=
  let evs := if c.ws.isSome then [Event.wsClose, Event.ended] else [Event.ended]
  ({ c with isActive := false, callInitiated := false, ws := none }, evs)

/-- Embedding of the synchronous body of
`Conversation.setConversationDetails(conversationId, ws)`: stores the id and
handle, then marks the conversation active iff the socket is already OPEN
(the registered `open` handler is modelled separately by `handleWsOpen`). -/
def setConversationDetails (c : Conv) (conversationId : String)
    (wsReady : WsState) : Conv :=
  let c' := { c with conversationId := some conversationId, ws := some wsReady }
  if wsReady = WsState.OPEN then { c' with isActive := true } else c'

/-- The `ws.on('open')` handler registered by `setConversationDetails`. -/
def handleWsOpen (c : Conv) : Conv :=
  { c with isActive := true }

/-- Embedding of `Conversation.handleConnectionClose()` (run on both the
`close` and the `error` event of the WebSocket). -/
def handleConnectionClose (c : Conv) : Conv × List Event :=
  if c.isActive then
    let p := endConv c
    (p.1, Event.message Role.system "Connection lost" :: p.2)
  else
    (c, [])

/-- An inbound voice-provider message as parsed from the WebSocket. -/
structure WsMessage where
  type : String
  text : Option String
deriving Repr, DecidableEq

/-- Embedding of `Conversation.handleWebSocketMessage(message)`. The
`audio_chunk` case of the source `switch` has no body and no `break`, so it
falls through into the `conversation_ended` case; `ping` and the `default`
case only log. -/
def handleWebSocketMessage (c : Conv) (m : WsMessage) : Conv × List Event :=
  if m.type = "agent_transcript" then
    match m.text with
    | some t =>
        if t ≠ "" ∧ jsTrim t ≠ "" then (c, [Event.message Role.callee t])
        else (c, [])
    | none => (c, [])
  else if m.type = "agent_response" then
    match m.text with
    | some t =>
        if t ≠ "" ∧ jsTrim t ≠ "" then (c, [Event.message Role.callee t])
        else (c, [])
    | none => (c, [])
  else if m.type = "audio_chunk" ∨ m.type = "conversation_ended" then
    let p := endConv c
    (p.1, Event.message Role.system "Call ended" :: p.2)
  else
    (c, [])

/-! ### Conversation registry (`conversations` map in `src/lib/utils.ts`) -/

abbrev Registry := List (String × Conv)

/-- Embedding of `getConversation(sessionId)`: atomic get-or-create. -/
def getConversation (reg : Registry) (sessionId : String) : Conv × Registry :=
  match mapGet reg sessionId with
  | some c => (c, reg)
  | none =>
      let c := newConversation sessionId
      (c, mapSet reg sessionId c)

/-- Embedding of `removeConversation(sessionId)`: ends and evicts the
session's Conversation when present, otherwise only logs. -/
def removeConversation (reg : Registry) (sessionId : String) :
    Registry × List Event :=
  match mapGet reg sessionId with
  | some c => (mapErase reg sessionId, (endConv c).2)
  | none => (reg, [])

/-! ### Emergency intake validation (`EmergencyRequestSchema` in the
emergency API handler, the variant wired to the conversation module) -/

structure JsonLocation where
  latitude : Int
  longitude : Int
deriving Repr, DecidableEq

/-- Shape of an incoming request body as far as the zod schema inspects it:
`location` is `optional` (may be absent), `manualAddress` is `nullable`
(must be present, may be `null`), the rest are required fields. The outer
`Option` is field presence, the inner one of `manualAddress` is `null`. -/
structure EmergencyRequestBody where
  serviceNeeded : Option String
  description : Option String
  location : Option JsonLocation
  manualAddress : Option (Option String)
  browserLanguage : Option String
  timestamp : Option String
deriving Repr, DecidableEq

structure EmergencyData where
  serviceNeeded : String
  description : String
  location : Option JsonLocation
  manualAddress : Option String
  browserLanguage : String
  timestamp : String
deriving Repr, DecidableEq

/-- Embedding of `EmergencyRequestSchema.parse`:
`serviceNeeded ∈ {police, fire, ambulance}`, `description` length in
`[10, 280]`, `location` optional, `manualAddress` nullable, the remaining
strings required. Returns `none` where zod throws. -/
def parseEmergencyRequest (b : EmergencyRequestBody) : Option EmergencyData :=
  match b.serviceNeeded, b.description, b.manualAddress,
      b.browserLanguage, b.timestamp with
  | some sv, some d, some ma, some bl, some ts =>
      if (sv = "police" ∨ sv = "fire" ∨ sv = "ambulance")
          ∧ 10 ≤ d.length ∧ d.length ≤ 280 then
        some ⟨sv, d, b.location, ma, bl, ts⟩
      else
        none
  | _, _, _, _, _ => none

/-! ## Lemmas for claim C3 (rate limiter windowing) -/

theorem same_bucket_le {W k t0 t : Nat} (hW : 1 ≤ W) (h0 : t0 / W = k)
    (ht : t / W = k) : t ≤ t0 + W := by
  have a := Nat.div_add_mod t W
  have b := Nat.div_add_mod t0 W
  have hm : t % W < W := Nat.mod_lt t hW
  rw [ht] at a
  rw [h0] at b
  omega

theorem checkRateLimit_fresh (store : RLStore) (identifier : String)
    (maxRequests windowMs now : Nat)
    (h : mapGet store (rlKey identifier now windowMs) = none) :
    checkRateLimit store identifier maxRequests windowMs now =
      (⟨true, (maxRequests : Int) - 1, now + windowMs⟩,
        mapSet store (rlKey identifier now windowMs) ⟨1, now + windowMs⟩) := by
  simp [checkRateLimit, h]

/-- Running the limiter over calls that all land in the bucket `k` whose
entry currently holds count `c` and reset time `t0 + W`: results follow
`bucketResults`, the bucket entry keeps its reset time, and no other key of
the store is touched. -/
theorem rlRun_in_bucket (identifier : String) (N W k t0 : Nat) (hW : 1 ≤ W)
    (h0 : t0 / W = k) :
    ∀ (ts : List Nat) (store : RLStore) (c : Nat),
      (∀ t ∈ ts, t / W = k) →
      mapGet store ⟨identifier, k⟩ = some ⟨c, t0 + W⟩ →
      (rlRun store identifier N W ts).1
          = bucketResults N (t0 + W) c ts.length ∧
      (∃ c', mapGet (rlRun store identifier N W ts).2 ⟨identifier, k⟩
          = some ⟨c', t0 + W⟩) ∧
      (∀ key', key' ≠ (⟨identifier, k⟩ : RLKey) →
        mapGet (rlRun store identifier N W ts).2 key' = mapGet store key') := by
  intro ts
  induction ts with
  | nil =>
      intro store c hts hget
      exact ⟨rfl, ⟨c, hget⟩, fun _ _ => rfl⟩
  | cons t ts ih =>
      intro store c hts hget
      have htk : t / W = k := hts t (List.mem_cons_self t ts)
      have hkey : rlKey identifier t W = ⟨identifier, k⟩ := by
        simp [rlKey, htk]
      have hle : t ≤ t0 + W := same_bucket_le hW h0 htk
      have hts' : ∀ u ∈ ts, u / W = k := fun u hu => hts u (List.mem_cons_of_mem t hu)
      by_cases hc : N ≤ c
      · have hcr : checkRateLimit store identifier N W t
            = (⟨false, 0, t0 + W⟩, store) := by
          simp [checkRateLimit, hkey, hget, Nat.not_lt.mpr hle, hc]
        obtain ⟨hres, hentry, hframe⟩ := ih store c hts' hget
        refine ⟨?_, ?_, ?_⟩
        · simp [rlRun, hcr, hres, bucketResults, hc]
        · simpa [rlRun, hcr] using hentry
        · intro key' hk'
          simpa [rlRun, hcr] using hframe key' hk'
      · have hcr : checkRateLimit store identifier N W t
            = (⟨true, (N : Int) - (c + 1), t0 + W⟩,
                mapSet store ⟨identifier, k⟩ ⟨c + 1, t0 + W⟩) := by
          simp [checkRateLimit, hkey, hget, Nat.not_lt.mpr hle, hc]
        have hget2 : mapGet (mapSet store (⟨identifier, k⟩ : RLKey)
              ⟨c + 1, t0 + W⟩) ⟨identifier, k⟩ = some ⟨c + 1, t0 + W⟩ :=
          mapGet_mapSet_self store ⟨identifier, k⟩ ⟨c + 1, t0 + W⟩
        obtain ⟨hres, hentry, hframe⟩ :=
          ih (mapSet store ⟨identifier, k⟩ ⟨c + 1, t0 + W⟩) (c + 1) hts' hget2
        refine ⟨?_, ?_, ?_⟩
        · simp [rlRun, hcr, hres, bucketResults, hc]
        · simpa [rlRun, hcr] using hentry
        · intro key' hk'
          have := hframe key' hk'
          simp only [rlRun, hcr]
          rw [this, mapGet_mapSet_ne store _ hk']

theorem bucketResults_of_le (N rt c : Nat) (h : N ≤ c) :
    ∀ len, bucketResults N rt c len
      = List.replicate len ⟨false, 0, rt⟩ := by
  intro len
  induction len with
  | zero => rfl
  | succ n ih => simp [bucketResults, h, ih, List.replicate_succ]

theorem bucketResults_take_allowed (N rt : Nat) :
    ∀ len c r, r ∈ (bucketResults N rt c len).take (N - c) →
      r.allowed = true := by
  intro len
  induction len with
  | zero =>
      intro c r hr
      simp [bucketResults] at hr
  | succ n ih =>
      intro c r hr
      by_cases hc : N ≤ c
      · rw [show N - c = 0 by omega] at hr
        simp at hr
      · rw [show N - c = (N - (c + 1)) + 1 by omega] at hr
        simp only [bucketResults, if_neg hc, List.take_succ_cons,
          List.mem_cons] at hr
        rcases hr with hr | hr
        · rw [hr]
        · exact ih (c + 1) r hr

theorem bucketResults_drop (N rt : Nat) :
    ∀ len c, c ≤ N →
      (bucketResults N rt c len).drop (N - c)
        = List.replicate (len - (N - c)) ⟨false, 0, rt⟩ := by
  intro len
  induction len with
  | zero =>
      intro c h
      simp [bucketResults]
  | succ n ih =>
      intro c h
      by_cases hc : N ≤ c
      · rw [show N - c = 0 by omega, bucketResults_of_le N rt c hc]
        rfl
      · rw [show N - c = (N - (c + 1)) + 1 by omega]
        simp only [bucketResults, if_neg hc, List.drop_succ_cons]
        rw [ih (c + 1) (by omega)]
        congr 1
        omega

/-! ## Refinement definition for claim C2 -/

/-- Admission control as worded by the specification (claim C2): six rules
evaluated in this fixed order with first failure winning. Written from the
spec's words, to be compared against `canInitiateCall` from the source. -/
def canInitiateCallSpec (c : Conv) (st : RateLimitState) (now : Nat) :
    AdmissionResult :=
  if c.isActive then ⟨false, some "Call already active"⟩
  else if c.callInitiated then ⟨false, some "Call already initiated"⟩
  else if 10 ≤ (st.globalCalls.filter (fun t => now - t < 3600000)).length then
    ⟨false, some "Hourly call limit exceeded"⟩
  else if 3 ≤ (st.globalCalls.filter (fun t => now - t < 60000)).length then
    ⟨false, some "Minute call limit exceeded"⟩
  else if (match mapGet st.sessionCalls c.sessionId with
      | some sessionData => decide (now - sessionData.lastCall < 30000)
      | none => false) then
    ⟨false, some "Call cooldown period active"⟩
  else if 1 ≤ (match mapGet st.sessionCalls c.sessionId with
      | some sessionData => sessionData.count
      | none => 0) then
    ⟨false, some "Session call limit exceeded"⟩
  else ⟨true, none⟩

theorem filter_filter_of_imp {p q : Nat → Bool} (l : List Nat)
    (h : ∀ a, p a = true → q a = true) :
    (l.filter q).filter p = l.filter p := by
  induction l with
  | nil => rfl
  | cons a l ih =>
      by_cases hp : p a = true
      · simp [List.filter_cons, hp, h a hp, ih]
      · by_cases hq : q a = true <;> simp [List.filter_cons, hp, hq, ih]

/-- The decision part of `isRateLimited`, rewritten as a single if-chain
over the un-pruned state (pruning to the trailing hour does not change any
of the four checks). -/
theorem isRateLimited_char (st : RateLimitState) (sid : String) (now : Nat) :
    (isRateLimited st sid now).1 =
      if 10 ≤ (st.globalCalls.filter (fun t => now - t < 3600000)).length then
        ⟨true, some "Hourly call limit exceeded"⟩
      else if 3 ≤ (st.globalCalls.filter (fun t => now - t < 60000)).length then
        ⟨true, some "Minute call limit exceeded"⟩
      else if (match mapGet st.sessionCalls sid with
          | some sessionData => decide (now - sessionData.lastCall < 30000)
          | none => false) then
        ⟨true, some "Call cooldown period active"⟩
      else if 1 ≤ (match mapGet st.sessionCalls sid with
          | some sessionData => sessionData.count
          | none => 0) then
        ⟨true, some "Session call limit exceeded"⟩
      else ⟨false, none⟩ := by
  have hid : ∀ a : Nat, (fun t => decide (now - t < 3600000)) a = true →
      (fun t => decide (now - t < 3600000)) a = true := fun a ha => ha
  have hsub : ∀ a : Nat, (fun t => decide (now - t < 60000)) a = true →
      (fun t => decide (now - t < 3600000)) a = true := by
    intro a ha
    simp only [decide_eq_true_eq] at ha ⊢
    omega
  unfold isRateLimited
  simp only [filter_filter_of_imp st.globalCalls hid,
    filter_filter_of_imp st.globalCalls hsub,
    MAX_CALLS_PER_HOUR, MAX_CALLS_PER_MINUTE, MAX_CALLS_PER_SESSION,
    CALL_COOLDOWN_MS]
  cases hm : mapGet st.sessionCalls sid with
  | none => split_ifs <;> simp_all
  | some sessionData =>
      by_cases hcd : now - sessionData.lastCall < 30000
      · split_ifs <;> simp_all
      · split_ifs <;> simp_all [hcd] <;> rw [if_neg (by omega)]

/-! ## Theorems settling the specification claims -/

/-- Claim C1: code behaviour at the failing trace. Starting from a fresh
session and empty rate-limit state, admission passes; after
`markCallInitiated` and the handler's error-path rollback
(`callInitiated = false`), a later admission check for the same session —
at `now = 40000`, well past the 30000 ms cooldown — is rejected with
"Session call limit exceeded" instead of returning `allowed = true`,
because `recordCall`'s session count was not rolled back. -/
theorem admission_rollback_locks_out_session :
    (canInitiateCall (newConversation "session1") ⟨[], []⟩ 0).1
        = ⟨true, none⟩ ∧
    (rollbackCallInitiated
        (markCallInitiated (newConversation "session1") ⟨[], []⟩ 0).1).callInitiated
        = false ∧
    (canInitiateCall
        (rollbackCallInitiated
          (markCallInitiated (newConversation "session1") ⟨[], []⟩ 0).1)
        (markCallInitiated (newConversation "session1") ⟨[], []⟩ 0).2
        40000).1
      = ⟨false, some "Session call limit exceeded"⟩ := by decide

/-- Claim C2: under the state invariant that an active Conversation has a
truthy `conversationId` (which holds in every reachable state, since
`setConversationDetails` assigns the id before any activation),
`canInitiateCall` decides admission exactly by the six specified rules, in
order, first failure winning, with the specified reasons. -/
theorem canInitiateCall_rule_order (c : Conv) (st : RateLimitState) (now : Nat)
    (h : c.isActive = true → jsTruthyStr c.conversationId = true) :
    (canInitiateCall c st now).1 = canInitiateCallSpec c st now := by
  by_cases hact : c.isActive = true
  · simp [canInitiateCall, canInitiateCallSpec, hact, h hact]
  · have hact' : c.isActive = false := by simpa using hact
    by_cases hci : c.callInitiated = true
    · simp [canInitiateCall, canInitiateCallSpec, hact', hci]
    · have hci' : c.callInitiated = false := by simpa using hci
      have hr := isRateLimited_char st c.sessionId now
      simp only [canInitiateCall, canInitiateCallSpec, hact', hci', hr,
        Bool.false_and, Bool.false_eq_true, if_false]
      split_ifs <;> simp_all

/-- Witness for C2 at a concrete state: one prior call for the session,
re-checked 5 s later (cooldown active). -/
theorem canInitiateCall_rule_order_witness :
    (canInitiateCall (newConversation "s")
        ⟨[0], [("s", ⟨1, 0⟩)]⟩ 5000).1
      = canInitiateCallSpec (newConversation "s")
          ⟨[0], [("s", ⟨1, 0⟩)]⟩ 5000 :=
  canInitiateCall_rule_order (newConversation "s")
    ⟨[0], [("s", ⟨1, 0⟩)]⟩ 5000 (by decide)

/-- Claim C3: for a limiter configured with `maxRequests = N ≥ 1` over
`windowMs = W ≥ 1` and an identifier with no pre-existing buckets, N+1
calls inside one time bucket yield `allowed = true` for the first N and
`⟨false, 0, t0 + W⟩` for the (N+1)-th; any call after the bucket's
resetTime has elapsed starts a fresh counter and returns `allowed = true`
with `remaining = N - 1`. -/
theorem checkRateLimit_windowing (identifier : String) (N W k t0 : Nat)
    (ts : List Nat) (store : RLStore) (hN : 1 ≤ N) (hW : 1 ≤ W)
    (hfresh : ∀ b, mapGet store ⟨identifier, b⟩ = none)
    (h0 : t0 / W = k) (hts : ∀ t ∈ ts, t / W = k) (hlen : ts.length = N) :
    (∀ r ∈ ((rlRun store identifier N W (t0 :: ts)).1).take N,
        r.allowed = true) ∧
    ((rlRun store identifier N W (t0 :: ts)).1).drop N
        = [⟨false, 0, t0 + W⟩] ∧
    (∀ t', t0 + W < t' →
      (checkRateLimit (rlRun store identifier N W (t0 :: ts)).2
          identifier N W t').1
        = ⟨true, (N : Int) - 1, t' + W⟩) := by
  obtain ⟨M, rfl⟩ : ∃ M, N = M + 1 := ⟨N - 1, by omega⟩
  have hkey0 : rlKey identifier t0 W = ⟨identifier, k⟩ := by
    simp [rlKey, h0]
  have hfirst := checkRateLimit_fresh store identifier (M + 1) W t0
    (by rw [hkey0]; exact hfresh k)
  rw [hkey0] at hfirst
  have hget1 : mapGet (mapSet store (⟨identifier, k⟩ : RLKey) ⟨1, t0 + W⟩)
      ⟨identifier, k⟩ = some ⟨1, t0 + W⟩ :=
    mapGet_mapSet_self store ⟨identifier, k⟩ ⟨1, t0 + W⟩
  obtain ⟨hres, ⟨c', hc'⟩, hframe⟩ :=
    rlRun_in_bucket identifier (M + 1) W k t0 hW h0 ts
      (mapSet store ⟨identifier, k⟩ ⟨1, t0 + W⟩) 1 hts hget1
  have hcons : rlRun store identifier (M + 1) W (t0 :: ts)
      = ((⟨true, ((M + 1 : Nat) : Int) - 1, t0 + W⟩ : RLResult)
            :: (rlRun (mapSet store ⟨identifier, k⟩ ⟨1, t0 + W⟩)
                identifier (M + 1) W ts).1,
          (rlRun (mapSet store ⟨identifier, k⟩ ⟨1, t0 + W⟩)
              identifier (M + 1) W ts).2) := by
    simp [rlRun, hfirst]
  have hcons1 : (rlRun store identifier (M + 1) W (t0 :: ts)).1
      = (⟨true, ((M + 1 : Nat) : Int) - 1, t0 + W⟩ : RLResult)
          :: (rlRun (mapSet store ⟨identifier, k⟩ ⟨1, t0 + W⟩)
              identifier (M + 1) W ts).1 := by
    rw [hcons]
  have hcons2 : (rlRun store identifier (M + 1) W (t0 :: ts)).2
      = (rlRun (mapSet store ⟨identifier, k⟩ ⟨1, t0 + W⟩)
          identifier (M + 1) W ts).2 := by
    rw [hcons]
  refine ⟨?_, ?_, ?_⟩
  · intro r hr
    rw [hcons1, List.take_succ_cons, List.mem_cons] at hr
    rcases hr with hr | hr
    · rw [hr]
    · rw [hres, hlen] at hr
      exact bucketResults_take_allowed (M + 1) (t0 + W) (M + 1) 1 r hr
  · rw [hcons1, List.drop_succ_cons, hres, hlen]
    have hd := bucketResults_drop (M + 1) (t0 + W) (M + 1) 1 (by omega)
    rw [show M + 1 - (M + 1 - 1) = 1 by omega] at hd
    exact hd
  · intro t' ht'
    have hdiv : k + 1 ≤ t' / W := by
      have h1 : (t0 + W) / W ≤ t' / W :=
        Nat.div_le_div_right (Nat.le_of_lt ht')
      rw [Nat.add_div_right t0 hW, h0] at h1
      exact h1
    have hne : (⟨identifier, t' / W⟩ : RLKey) ≠ ⟨identifier, k⟩ := by
      simp only [ne_eq, RLKey.mk.injEq, not_and]
      intro _
      omega
    rw [hcons2]
    have hnone : mapGet (rlRun (mapSet store ⟨identifier, k⟩ ⟨1, t0 + W⟩)
        identifier (M + 1) W ts).2 (rlKey identifier t' W) = none := by
      show mapGet _ (⟨identifier, t' / W⟩ : RLKey) = none
      rw [hframe ⟨identifier, t' / W⟩ hne,
        mapGet_mapSet_ne store _ hne, hfresh (t' / W)]
    rw [checkRateLimit_fresh _ identifier (M + 1) W t' hnone]

/-- Witness for C3 with `N = 2`, `W = 10`, calls at times 0, 3, 7 in bucket
0 and a fourth call at time 11, after the reset time. -/
theorem checkRateLimit_windowing_witness :
    (∀ r ∈ ((rlRun [] "ip" 2 10 [0, 3, 7]).1).take 2, r.allowed = true) ∧
    ((rlRun [] "ip" 2 10 [0, 3, 7]).1).drop 2 = [⟨false, 0, 0 + 10⟩] ∧
    (checkRateLimit (rlRun [] "ip" 2 10 [0, 3, 7]).2 "ip" 2 10 11).1
      = ⟨true, (2 : Int) - 1, 11 + 10⟩ := by
  have h := checkRateLimit_windowing "ip" 2 10 0 0 [3, 7] []
    (by decide) (by decide) (fun b => rfl) (by decide) (by decide) (by decide)
  exact ⟨h.1, h.2.1, h.2.2 11 (by decide)⟩

/-- Claim C4 counterexample: calling `end()` on an already-ended
Conversation emits the `ended` event again, contradicting the claim that it
is not emitted a second time. -/
theorem endConv_reemits_ended_cex :
    Event.ended ∈ (endConv (endConv (newConversation "s")).1).2 := by decide

/-- Claim C4 (amended): calling `end()` on an already-ended Conversation
does not throw and leaves the Conversation state unchanged, but it emits
the `ended` event once more on every call. -/
theorem endConv_idempotent_state (c : Conv) (h1 : c.isActive = false)
    (h2 : c.callInitiated = false) (h3 : c.ws = none) :
    endConv c = (c, [Event.ended]) := by
  cases c
  simp_all [endConv]

/-- Witness for the amended C4 theorem at a concrete already-ended
Conversation. -/
theorem endConv_idempotent_state_witness :
    endConv (endConv (newConversation "s")).1
      = ((endConv (newConversation "s")).1, [Event.ended]) :=
  endConv_idempotent_state _ rfl rfl rfl

/-- Claim C5 counterexample: a report with `location` absent and
`manualAddress` null passes the intake schema (`manualAddress` is
`nullable`, `location` is `optional`), so a report with neither a location
nor a manual address is accepted and reaches the Conversation layer. -/
theorem parseEmergencyRequest_accepts_no_location_cex :
    parseEmergencyRequest
        ⟨some "police", some "Help me please now", none, some none,
          some "en", some "2024-01-01T00:00:00Z"⟩
      = some ⟨"police", "Help me please now", none, none,
          "en", "2024-01-01T00:00:00Z"⟩ := by decide

/-- Claim C5 (amended): every report accepted by intake validation has a
`serviceNeeded` in the police/fire/ambulance enum and a description whose
length is between 10 and 280 characters; but the presence of a location or
manual address is not enforced — a report with `location` absent and
`manualAddress` null is accepted. -/
theorem parseEmergencyRequest_bounds (b : EmergencyRequestBody)
    (d : EmergencyData) (h : parseEmergencyRequest b = some d) :
    (d.serviceNeeded = "police" ∨ d.serviceNeeded = "fire"
        ∨ d.serviceNeeded = "ambulance")
      ∧ 10 ≤ d.description.length ∧ d.description.length ≤ 280 := by
  unfold parseEmergencyRequest at h
  split at h
  · split at h
    · cases h
      simp_all
    · exact absurd h (by simp)
  · exact absurd h (by simp)

/-- Witness for the amended C5 theorem at a concrete accepted report. -/
theorem parseEmergencyRequest_bounds_witness :
    (("ambulance" : String) = "police" ∨ ("ambulance" : String) = "fire"
        ∨ ("ambulance" : String) = "ambulance")
      ∧ 10 ≤ ("Severe chest pain" : String).length
      ∧ ("Severe chest pain" : String).length ≤ 280 :=
  parseEmergencyRequest_bounds
    ⟨some "ambulance", some "Severe chest pain", some ⟨51, 0⟩,
      some (some "1 Main St"), some "en", some "now"⟩
    ⟨"ambulance", "Severe chest pain", some ⟨51, 0⟩,
      some "1 Main St", "en", "now"⟩
    (by decide)

/-- Claim C6: `isActive` becomes true only through the channel being open —
`markCallInitiated` (the admission flip after the call-initiation request
is allowed) never changes `isActive`; `setConversationDetails` makes
`isActive` true exactly when the socket is already in the OPEN state when
wiring runs; and the registered `open` handler sets it to true. -/
theorem isActive_only_on_channel_open :
    (∀ c st now, ((markCallInitiated c st now).1).isActive = c.isActive) ∧
    (∀ c cid rs, c.isActive = false →
      ((setConversationDetails c cid rs).isActive = true ↔ rs = WsState.OPEN)) ∧
    (∀ c, (handleWsOpen c).isActive = true) := by
  refine ⟨fun c st now => rfl, fun c cid rs h => ?_, fun c => rfl⟩
  unfold setConversationDetails
  by_cases hrs : rs = WsState.OPEN <;> simp [hrs, h]

/-- Witness for C6 at concrete socket states: wiring with an OPEN socket
activates the Conversation, wiring with a CONNECTING socket does not. -/
theorem isActive_only_on_channel_open_witness :
    ((setConversationDetails (newConversation "s") "cid" WsState.OPEN).isActive
        = true ↔ WsState.OPEN = WsState.OPEN) ∧
    ((setConversationDetails (newConversation "s") "cid"
        WsState.CONNECTING).isActive = true ↔ WsState.CONNECTING = WsState.OPEN) :=
  ⟨isActive_only_on_channel_open.2.1 (newConversation "s") "cid" WsState.OPEN rfl,
    isActive_only_on_channel_open.2.1 (newConversation "s") "cid"
      WsState.CONNECTING rfl⟩

/-- Claim C7: when the channel reports close (or error, which runs the same
handler) while the Conversation is active, the Conversation emits a system
"Connection lost" message, resets `isActive` and `callInitiated`, closes
and dereferences the channel, and emits `ended`. -/
theorem connectionClose_while_active (c : Conv) (w : WsState)
    (hact : c.isActive = true) (hws : c.ws = some w) :
    handleConnectionClose c =
      ({ c with isActive := false, callInitiated := false, ws := none },
        [Event.message Role.system "Connection lost", Event.wsClose,
          Event.ended]) := by
  unfold handleConnectionClose endConv
  simp [hact, hws]

/-- Witness for C7 at a concrete active Conversation. -/
theorem connectionClose_while_active_witness :
    handleConnectionClose
        (setConversationDetails (newConversation "s") "cid" WsState.OPEN) =
      ({ setConversationDetails (newConversation "s") "cid" WsState.OPEN with
          isActive := false, callInitiated := false, ws := none },
        [Event.message Role.system "Connection lost", Event.wsClose,
          Event.ended]) :=
  connectionClose_while_active _ WsState.OPEN rfl rfl

/-- Claim C8: for an inbound `agent_transcript` or `agent_response`
message, non-whitespace text is relayed as exactly one `callee` message
with the original text, while missing, empty or whitespace-only text is
dropped with the Conversation state unchanged. -/
theorem transcript_relay (c : Conv) (ty t : String)
    (hty : ty = "agent_transcript" ∨ ty = "agent_response") :
    (jsTrim t ≠ "" →
      handleWebSocketMessage c ⟨ty, some t⟩
        = (c, [Event.message Role.callee t])) ∧
    (jsTrim t = "" → handleWebSocketMessage c ⟨ty, some t⟩ = (c, [])) ∧
    handleWebSocketMessage c ⟨ty, none⟩ = (c, []) := by
  have hne : jsTrim t ≠ "" → t ≠ "" := fun htrim he => htrim (by rw [he]; rfl)
  rcases hty with hty | hty <;> subst hty
  · exact ⟨fun htrim => by simp [handleWebSocketMessage, htrim, hne htrim],
      fun htrim => by simp [handleWebSocketMessage, htrim],
      by simp [handleWebSocketMessage]⟩
  · exact ⟨fun htrim => by simp [handleWebSocketMessage, htrim, hne htrim],
      fun htrim => by simp [handleWebSocketMessage, htrim],
      by simp [handleWebSocketMessage]⟩

/-- Witness for C8: a concrete transcript with real text is relayed. -/
theorem transcript_relay_witness :
    handleWebSocketMessage (newConversation "s")
        ⟨"agent_transcript", some "hello there"⟩
      = (newConversation "s", [Event.message Role.callee "hello there"]) :=
  (transcript_relay (newConversation "s") "agent_transcript" "hello there"
    (Or.inl rfl)).1 (by decide)

/-- Claim C9: an inbound `audio_chunk` message is handled identically to
`conversation_ended` (the source `switch` case falls through): the
Conversation emits a system "Call ended" message and ends — `isActive` and
`callInitiated` become false and the channel is dereferenced. -/
theorem audio_chunk_falls_through (c : Conv) (txt : Option String) :
    handleWebSocketMessage c ⟨"audio_chunk", txt⟩
        = handleWebSocketMessage c ⟨"conversation_ended", txt⟩ ∧
    handleWebSocketMessage c ⟨"audio_chunk", txt⟩
        = ((endConv c).1,
            Event.message Role.system "Call ended" :: (endConv c).2) ∧
    (handleWebSocketMessage c ⟨"audio_chunk", txt⟩).1.isActive = false ∧
    (handleWebSocketMessage c ⟨"audio_chunk", txt⟩).1.callInitiated = false ∧
    (handleWebSocketMessage c ⟨"audio_chunk", txt⟩).1.ws = none := by
  refine ⟨?_, ?_, ?_, ?_, ?_⟩ <;> simp [handleWebSocketMessage, endConv]

/-- Claim C10: removing a session that is not in the registry is a no-op:
no events are emitted and the registry (hence every registered
Conversation) is unchanged. -/
theorem removeConversation_absent (reg : Registry) (sessionId : String)
    (h : mapGet reg sessionId = none) :
    removeConversation reg sessionId = (reg, []) := by
  unfold removeConversation
  rw [h]

/-- Witness for C10 at a concrete registry missing the session. -/
theorem removeConversation_absent_witness :
    removeConversation [("a", newConversation "a")] "b"
      = ([("a", newConversation "a")], []) :=
  removeConversation_absent _ _ (by decide)

end SOSBridge
